import Mathlib

/-! # Edge representation and equivalence model of the DD package

Shallow embedding of `include/dd/Edge.hpp`: the referencing edge `Edge<Node>`
(node pointer plus weight reference), the value edge `CachedEdge<Node>` (node
pointer plus owned weight value), their comparison operators, the terminal
helpers and the two `std::hash` specialisations.

`Edge.hpp` includes `Complex.hpp` and `ComplexValue.hpp` and is a template over
`Node`; none of these is part of the sources at hand.  What the header needs of
them is either taken as a parameter (the terminal sentinel, the tolerance, the
state of the weight table, the canonical weights, the hash helpers) or modelled
from the specification, in definitions marked as such.

Pointers are machine addresses (`Nat`); numeric values are exact rationals.
-/

namespace dd

/-! ## External collaborators -/

/-- Modelled from the spec: the numeric type of a weight component (`fp` in
`CTEntry::val`), absent from the sources; an exact rational stands for the
"numeric value" the specification speaks of. -/
abbrev fp := ℚ

/-- Address of a node (`Node*`), as `reinterpret_cast<std::size_t>` sees it. -/
abbrev NodePtr := Nat

/-- Address of an entry of the weight table (`CTEntry*`): the handle a weight
reference holds. -/
abbrev CTEntryPtr := Nat

/-- State of the shared weight table: the numeric value every entry holds. -/
abbrev ComplexTable := CTEntryPtr → fp

/-- Modelled from the spec: `CTEntry::val` (absent from the sources),
"dereference-to-value" of a handle in the current state of the table. -/
def CTEntry.val (T : ComplexTable) (e : CTEntryPtr) : fp := T e

/-- Modelled from the spec: the tolerance rule of the weight types (absent from
the sources), "equality that treats two numeric values as equal when their
difference is below a fixed threshold". -/
def approximatelyEquals (tol x y : fp) : Bool := decide (|x - y| < tol)

/-- Weight value `ComplexValue`: an owned numeric pair; the fields `r` and `i`
are the ones `CachedEdge` assigns. -/
structure ComplexValue where
  r : fp
  i : fp
deriving DecidableEq

/-- Weight reference `Complex`: two handles into the weight table; the fields
`real` and `img` are the ones `CachedEdge` reads. -/
structure Complex where
  real : CTEntryPtr
  img : CTEntryPtr
deriving DecidableEq

/-- Modelled from the spec: `ComplexValue::approximatelyEquals` (absent from the
sources), the tolerance rule on both components of the numeric pair. -/
def ComplexValue.approximatelyEquals (tol : fp) (a c : ComplexValue) : Bool :=
  dd.approximatelyEquals tol a.r c.r && dd.approximatelyEquals tol a.i c.i

/-- Modelled from the spec: `Complex::approximatelyEquals` (absent from the
sources); "comparing two handles requires dereferencing the canonical values,
not pointer identity of the handle itself". -/
def Complex.approximatelyEquals (tol : fp) (T : ComplexTable) (a c : Complex) : Bool :=
  dd.approximatelyEquals tol (CTEntry.val T a.real) (CTEntry.val T c.real)
    && dd.approximatelyEquals tol (CTEntry.val T a.img) (CTEntry.val T c.img)

/-- Modelled from the spec: `Complex::operator==` (absent from the sources), the
comparison `isZeroTerminal` and `isOneTerminal` call.  Handles are compared by
"dereferencing the canonical values, not pointer identity of the handle itself",
and the weight equals the canonical zero/one weight "by the same
approximate-equality rule". -/
def Complex.eq (tol : fp) (T : ComplexTable) (a c : Complex) : Bool :=
  Complex.approximatelyEquals tol T a c

/-- Modelled from the spec: `Node::isTerminal` (the template parameter `Node` is
absent from the sources), "tests identity against that sentinel"; `terminal` is
the address `Node::terminal`. -/
def Node.isTerminal (terminal p : NodePtr) : Bool := p == terminal

/-- Modelled from the spec: the hash helpers absent from the sources,
`dd::murmur64`, `dd::combineHash`, `std::hash<dd::Complex>` and
`std::hash<dd::ComplexValue>`, taken as parameters. -/
structure HashFns where
  murmur64 : Nat → Nat
  combineHash : Nat → Nat → Nat
  hashComplex : Complex → Nat
  hashComplexValue : ComplexValue → Nat

/-! ## `Edge<Node>` -/

/-- Live edge `Edge<Node>`. -/
structure Edge where
  next_node : NodePtr
  weight : Complex
deriving DecidableEq

/-- Operator `Edge::operator==`. -/
def Edge.eq (tol : fp) (T : ComplexTable) (e other : Edge) : Bool :=
  e.next_node == other.next_node && Complex.approximatelyEquals tol T e.weight other.weight

/-- Operator `Edge::operator!=`. -/
def Edge.ne (tol : fp) (T : ComplexTable) (e other : Edge) : Bool :=
  !Edge.eq tol T e other

/-- Member `Edge::isTerminal`. -/
def Edge.isTerminal (terminal : NodePtr) (e : Edge) : Bool :=
  Node.isTerminal terminal e.next_node

/-- Constant `Edge::one`, over the canonical weight `Complex::one`. -/
def Edge.one (terminal : NodePtr) (cone : Complex) : Edge := ⟨terminal, cone⟩

/-- Constant `Edge::zero`, over the canonical weight `Complex::zero`. -/
def Edge.zero (terminal : NodePtr) (czero : Complex) : Edge := ⟨terminal, czero⟩

/-- Factory `Edge::terminal`. -/
def Edge.terminal (terminal : NodePtr) (weight : Complex) : Edge := ⟨terminal, weight⟩

/-- Member `Edge::isZeroTerminal`; `czero` is `Complex::zero`. -/
def Edge.isZeroTerminal (tol : fp) (T : ComplexTable) (terminal : NodePtr) (czero : Complex)
    (e : Edge) : Bool :=
  Node.isTerminal terminal e.next_node && Complex.eq tol T e.weight czero

/-- Member `Edge::isOneTerminal`; `cone` is `Complex::one`. -/
def Edge.isOneTerminal (tol : fp) (T : ComplexTable) (terminal : NodePtr) (cone : Complex)
    (e : Edge) : Bool :=
  Node.isTerminal terminal e.next_node && Complex.eq tol T e.weight cone

/-- Hash `std::hash<dd::Edge<Node>>::operator()`. -/
def Edge.hash (H : HashFns) (e : Edge) : Nat :=
  let h1 := H.murmur64 e.next_node
  let h2 := H.hashComplex e.weight
  H.combineHash h1 h2

/-! ## `CachedEdge<Node>` -/

/-- Cached edge `CachedEdge<Node>`. -/
structure CachedEdge where
  next_node : NodePtr
  weight : ComplexValue
deriving DecidableEq

/-- Constructor `CachedEdge::CachedEdge()`: both members value-initialised. -/
def CachedEdge.default : CachedEdge := ⟨0, ⟨0, 0⟩⟩

/-- Constructor `CachedEdge::CachedEdge(Node*, const ComplexValue&)`. -/
def CachedEdge.ofValue (next_node : NodePtr) (weight_original : ComplexValue) : CachedEdge :=
  ⟨next_node, weight_original⟩

/-- Constructor `CachedEdge::CachedEdge(Node*, const Complex&)`, in the state `T` of the
weight table at the time of the call. -/
def CachedEdge.ofComplex (T : ComplexTable) (next_node : NodePtr)
    (weight_complex_number : Complex) : CachedEdge :=
  ⟨next_node, ⟨CTEntry.val T weight_complex_number.real, CTEntry.val T weight_complex_number.img⟩⟩

/-- Operator `CachedEdge::operator==`. -/
def CachedEdge.eq (tol : fp) (e other : CachedEdge) : Bool :=
  e.next_node == other.next_node && ComplexValue.approximatelyEquals tol e.weight other.weight

/-- Operator `CachedEdge::operator!=`. -/
def CachedEdge.ne (tol : fp) (e other : CachedEdge) : Bool :=
  !CachedEdge.eq tol e other

/-- Hash `std::hash<dd::CachedEdge<Node>>::operator()`. -/
def CachedEdge.hash (H : HashFns) (e : CachedEdge) : Nat :=
  let h1 := H.murmur64 e.next_node
  let h2 := H.hashComplexValue e.weight
  H.combineHash h1 h2

/-! ## Mutation of the weight table -/

/-- Modelled from the spec: mutation or eviction of one entry of the weight table
(the table is absent from the sources): afterwards entry `h` holds `v`, every
other entry holds what it held. -/
def ComplexTable.mutate (T : ComplexTable) (h : CTEntryPtr) (v : fp) : ComplexTable :=
  fun e => if e = h then v else T e

/-- Modelled from the spec: state of the snapshot-isolation scenario, the weight
table together with a cached edge an operation cache holds beside it. -/
structure CacheState where
  table : ComplexTable
  cached : CachedEdge

/-- First step of the scenario: the cached edge is constructed from the live
edge `e` by `CachedEdge::CachedEdge(Node*, const Complex&)` in the table `T`. -/
def CacheState.construct (T : ComplexTable) (e : Edge) : CacheState :=
  ⟨T, CachedEdge.ofComplex T e.next_node e.weight⟩

/-- Later step of the scenario: one entry of the table is overwritten; the cached
edge owns its `ComplexValue` member and is no part of the table. -/
def CacheState.mutate (s : CacheState) (h : CTEntryPtr) (v : fp) : CacheState :=
  ⟨ComplexTable.mutate s.table h v, s.cached⟩

/-- Any number of later mutations, in order. -/
def CacheState.mutateAll (s : CacheState) (ms : List (CTEntryPtr × fp)) : CacheState :=
  ms.foldl (fun t m => CacheState.mutate t m.1 m.2) s

/-! ## Sample environment

A concrete state of the collaborators, used to evaluate the definitions: a
weight table with entries for 0, 1 and 10⁻¹⁴, the tolerance 10⁻¹⁰ of the
specification's end-to-end scenario, a terminal sentinel and two nodes. -/

/-- Tolerance 10⁻¹⁰. -/
def sampleTol : fp := 1 / 10 ^ 10

/-- Weight table: entry 1 holds 1, entry 2 holds 10⁻¹⁴, every other entry 0. -/
def sampleTable : ComplexTable :=
  fun e => if e = 1 then 1 else if e = 2 then 1 / 10 ^ 14 else 0

/-- Address of the terminal sentinel. -/
def sampleTerminal : NodePtr := 64

/-- Address of an inner node. -/
def nodeA : NodePtr := 4096

/-- Address of another inner node. -/
def nodeB : NodePtr := 8192

/-- Canonical weight reference for 0 in `sampleTable`. -/
def sampleZero : Complex := ⟨0, 0⟩

/-- Canonical weight reference for 1 in `sampleTable`. -/
def sampleOne : Complex := ⟨1, 0⟩

/-- Modelled from the spec: a weight hash that canonicalises before hashing,
"rounding to a table index before hashing": the index of the tolerance-wide
bucket a numeric value rounds to. -/
def roundIndex (tol x : fp) : Nat := (round (x / tol)).toNat

/-- Hash helpers for the sample environment: a weight reference is hashed by the
canonical value each handle rounds to (1 for entry 1, 0 otherwise), an owned
weight value by the bucket indices of its two components. -/
def sampleHash : HashFns where
  murmur64 := fun k => (k * 31 + 7) % 2 ^ 64
  combineHash := fun l r => (l * 64 + r) % 2 ^ 64
  hashComplex := fun c => (if c.real = 1 then 2 else 0) + (if c.img = 1 then 1 else 0)
  hashComplexValue := fun v => roundIndex sampleTol v.r * 2 ^ 32 + roundIndex sampleTol v.i

theorem approximatelyEquals_iff (tol x y : fp) :
    approximatelyEquals tol x y = true ↔ (x - y < tol ∧ y - x < tol) := by
  unfold approximatelyEquals
  rw [decide_eq_true_iff, abs_lt]
  constructor
  · rintro ⟨h1, h2⟩
    exact ⟨h2, by linarith⟩
  · rintro ⟨h1, h2⟩
    exact ⟨by linarith, h1⟩

theorem approximatelyEquals_self (tol x : fp) (htol : 0 < tol) :
    approximatelyEquals tol x x = true := by
  rw [approximatelyEquals_iff]
  constructor <;> linarith

theorem approximatelyEquals_comm (tol x y : fp) :
    approximatelyEquals tol x y = approximatelyEquals tol y x := by
  rw [Bool.eq_iff_iff, approximatelyEquals_iff, approximatelyEquals_iff]
  exact and_comm

theorem Edge_eq_iff (tol : fp) (T : ComplexTable) (a b : Edge) :
    Edge.eq tol T a b = true ↔
      (a.next_node = b.next_node ∧ Complex.approximatelyEquals tol T a.weight b.weight = true) := by
  simp [Edge.eq]

theorem CachedEdge_eq_iff (tol : fp) (a b : CachedEdge) :
    CachedEdge.eq tol a b = true ↔
      (a.next_node = b.next_node ∧ ComplexValue.approximatelyEquals tol a.weight b.weight = true) := by
  simp [CachedEdge.eq]

theorem Complex_approximatelyEquals_comm (tol : fp) (T : ComplexTable) (a c : Complex) :
    Complex.approximatelyEquals tol T a c = Complex.approximatelyEquals tol T c a := by
  unfold Complex.approximatelyEquals
  rw [dd.approximatelyEquals_comm tol (CTEntry.val T a.real),
    dd.approximatelyEquals_comm tol (CTEntry.val T a.img)]

theorem ComplexValue_approximatelyEquals_comm (tol : fp) (a c : ComplexValue) :
    ComplexValue.approximatelyEquals tol a c = ComplexValue.approximatelyEquals tol c a := by
  unfold ComplexValue.approximatelyEquals
  rw [dd.approximatelyEquals_comm tol a.r, dd.approximatelyEquals_comm tol a.i]

theorem Complex_approximatelyEquals_self (tol : fp) (T : ComplexTable) (a : Complex)
    (htol : 0 < tol) : Complex.approximatelyEquals tol T a a = true := by
  simp [Complex.approximatelyEquals, dd.approximatelyEquals_self, htol]

theorem ComplexValue_approximatelyEquals_self (tol : fp) (a : ComplexValue)
    (htol : 0 < tol) : ComplexValue.approximatelyEquals tol a a = true := by
  simp [ComplexValue.approximatelyEquals, dd.approximatelyEquals_self, htol]

theorem roundIndex_sampleTol (x : fp) (z : ℤ)
    (h : (z : fp) ≤ x * 10 ^ 10 + 1 / 2 ∧ x * 10 ^ 10 + 1 / 2 < z + 1) :
    roundIndex sampleTol x = z.toNat := by
  unfold roundIndex sampleTol
  have hz : round (x / (1 / 10 ^ 10)) = z := by
    rw [round_eq, Int.floor_eq_iff]
    have hx : x / (1 / 10 ^ 10) = x * 10 ^ 10 := by field_simp
    rw [hx]
    exact h
  rw [hz]

/-- Approximate equality links any two numeric values through a chain of steps
of half the tolerance: a function that is constant on approximately equal values
is constant. -/
theorem approximatelyEquals_chain {α : Type} (tol : fp) (htol : 0 < tol) (f : fp → α)
    (hf : ∀ x y, approximatelyEquals tol x y = true → f x = f y) (x y : fp) : f x = f y := by
  have hd : 0 < tol / 2 := by linarith
  have step : ∀ (n : ℕ) (z : fp), f (z + n * (tol / 2)) = f z := by
    intro n
    induction n with
    | zero => intro z; simp
    | succ k ih =>
      intro z
      rw [← ih z]
      apply hf
      rw [approximatelyEquals_iff]
      push_cast
      constructor <;> linarith
  have up : ∀ a b : fp, a ≤ b → f a = f b := by
    intro a b hab
    have hq : 0 ≤ (b - a) / (tol / 2) := div_nonneg (by linarith) hd.le
    have h1 : ((⌊(b - a) / (tol / 2)⌋₊ : ℕ) : fp) ≤ (b - a) / (tol / 2) := Nat.floor_le hq
    have h2 : (b - a) / (tol / 2) < (⌊(b - a) / (tol / 2)⌋₊ : ℕ) + 1 := Nat.lt_floor_add_one _
    rw [le_div_iff₀ hd] at h1
    rw [div_lt_iff₀ hd] at h2
    rw [← step ⌊(b - a) / (tol / 2)⌋₊ a]
    apply hf
    rw [approximatelyEquals_iff]
    constructor <;> linarith
  rcases le_total x y with h | h
  · exact up x y h
  · exact (up y x h).symm

/-- A hash of cached edges that agrees on all edges comparing equal, for a
positive tolerance, cannot tell two weights at one node apart. -/
theorem CachedEdge_hash_ignores_weight (tol : fp) (htol : 0 < tol) (H : HashFns)
    (hc : ∀ a b : CachedEdge, CachedEdge.eq tol a b = true → CachedEdge.hash H a = CachedEdge.hash H b)
    (n : NodePtr) (v w : ComplexValue) :
    CachedEdge.hash H ⟨n, v⟩ = CachedEdge.hash H ⟨n, w⟩ := by
  have hr : CachedEdge.hash H ⟨n, ⟨v.r, v.i⟩⟩ = CachedEdge.hash H ⟨n, ⟨w.r, v.i⟩⟩ := by
    apply approximatelyEquals_chain tol htol (fun x => CachedEdge.hash H ⟨n, ⟨x, v.i⟩⟩)
    intro x y hxy
    apply hc
    simp [CachedEdge.eq, ComplexValue.approximatelyEquals, hxy,
      dd.approximatelyEquals_self tol v.i htol]
  have hi : CachedEdge.hash H ⟨n, ⟨w.r, v.i⟩⟩ = CachedEdge.hash H ⟨n, ⟨w.r, w.i⟩⟩ := by
    apply approximatelyEquals_chain tol htol (fun x => CachedEdge.hash H ⟨n, ⟨w.r, x⟩⟩)
    intro x y hxy
    apply hc
    simp [CachedEdge.eq, ComplexValue.approximatelyEquals, hxy,
      dd.approximatelyEquals_self tol w.r htol]
  exact hr.trans hi

theorem CacheState_mutateAll_cached (ms : List (CTEntryPtr × fp)) (s : CacheState) :
    (CacheState.mutateAll s ms).cached = s.cached := by
  induction ms generalizing s with
  | nil => rfl
  | cons m rest ih =>
    have h : CacheState.mutateAll s (m :: rest)
        = CacheState.mutateAll (CacheState.mutate s m.1 m.2) rest := rfl
    rw [h, ih]
    rfl

theorem approximatelyEquals_two_steps (tol x y z : fp)
    (hxy : approximatelyEquals tol x y = true) (hyz : approximatelyEquals tol y z = true) :
    approximatelyEquals (2 * tol) x z = true := by
  rw [approximatelyEquals_iff] at hxy hyz ⊢
  constructor <;> linarith [hxy.1, hxy.2, hyz.1, hyz.2]

/-- A hash of live edges that agrees on all edges comparing equal, in every state
of the weight table and for a positive tolerance, cannot tell two weight
references at one node apart: in a table whose entries all hold one value any
two of them compare equal. -/
theorem Edge_hash_ignores_weight (tol : fp) (htol : 0 < tol) (H : HashFns)
    (hc : ∀ (T : ComplexTable) (a b : Edge),
      Edge.eq tol T a b = true → Edge.hash H a = Edge.hash H b)
    (n : NodePtr) (x y : Complex) :
    Edge.hash H ⟨n, x⟩ = Edge.hash H ⟨n, y⟩ := by
  apply hc (fun _ => 0)
  simp [Edge.eq, Complex.approximatelyEquals, CTEntry.val, dd.approximatelyEquals_self, htol]

/-! ## Theorems -/

/-- C1: `Edge::operator==` holds exactly when both edges hold the same node
reference and their weights are approximately equal under the tolerance rule of
the weight type; nothing else enters the result. -/
theorem C1_edge_eq_iff (tol : fp) (T : ComplexTable) (a b : Edge) :
    Edge.eq tol T a b = true ↔
      (a.next_node = b.next_node ∧ Complex.approximatelyEquals tol T a.weight b.weight = true) :=
  Edge_eq_iff tol T a b

/-- C3, counterexample: with the tolerance 10⁻¹⁰ and owned weights hashed by the
bucket they round to, the cached edges `{nodeA, 0.4·10⁻¹⁰}` and
`{nodeA, 0.6·10⁻¹⁰}` compare equal and hash differently. -/
theorem C3_cachedEdge_hash_counterexample :
    CachedEdge.eq sampleTol ⟨nodeA, ⟨4 / 10 ^ 11, 0⟩⟩ ⟨nodeA, ⟨6 / 10 ^ 11, 0⟩⟩ = true ∧
      CachedEdge.hash sampleHash ⟨nodeA, ⟨4 / 10 ^ 11, 0⟩⟩ ≠
        CachedEdge.hash sampleHash ⟨nodeA, ⟨6 / 10 ^ 11, 0⟩⟩ := by
  constructor
  · norm_num [CachedEdge.eq, ComplexValue.approximatelyEquals, approximatelyEquals_iff, sampleTol]
  · have h4 : roundIndex sampleTol (4 / 10 ^ 11) = 0 :=
      roundIndex_sampleTol _ 0 (by norm_num)
    have h6 : roundIndex sampleTol (6 / 10 ^ 11) = 1 :=
      roundIndex_sampleTol _ 1 (by norm_num)
    have h0 : roundIndex sampleTol 0 = 0 :=
      roundIndex_sampleTol _ 0 (by norm_num)
    simp only [CachedEdge.hash, sampleHash, h4, h6, h0, nodeA]
    decide

/-- C3, amended: two cached edges that compare equal have the same hash
`combineHash(murmur64(node address), hash(weight))` whenever the weight type's
own hash gives their two weights the same value. -/
theorem C3_cachedEdge_hash_consistent (tol : fp) (H : HashFns) (a b : CachedEdge)
    (hab : CachedEdge.eq tol a b = true)
    (hw : H.hashComplexValue a.weight = H.hashComplexValue b.weight) :
    CachedEdge.hash H a = CachedEdge.hash H b := by
  obtain ⟨hn, -⟩ := (CachedEdge_eq_iff tol a b).mp hab
  simp only [CachedEdge.hash, hn, hw]

/-- C3 at the specification's scenario: the cached edges `{nodeA, 1 + 0i}` and
`{nodeA, 1 + 10⁻¹⁴ i}` compare equal, their weights round to the same buckets,
and they hash alike. -/
theorem C3_cachedEdge_hash_consistent_witness :
    CachedEdge.eq sampleTol ⟨nodeA, ⟨1, 0⟩⟩ ⟨nodeA, ⟨1, 1 / 10 ^ 14⟩⟩ = true ∧
      CachedEdge.hash sampleHash ⟨nodeA, ⟨1, 0⟩⟩ =
        CachedEdge.hash sampleHash ⟨nodeA, ⟨1, 1 / 10 ^ 14⟩⟩ := by
  have heq : CachedEdge.eq sampleTol ⟨nodeA, ⟨1, 0⟩⟩ ⟨nodeA, ⟨1, 1 / 10 ^ 14⟩⟩ = true := by
    norm_num [CachedEdge.eq, ComplexValue.approximatelyEquals, approximatelyEquals_iff, sampleTol]
  have h0 : roundIndex sampleTol 0 = 0 :=
    roundIndex_sampleTol _ 0 (by norm_num)
  have h14 : roundIndex sampleTol (1 / 10 ^ 14) = 0 :=
    roundIndex_sampleTol _ 0 (by norm_num)
  exact ⟨heq, C3_cachedEdge_hash_consistent sampleTol sampleHash _ _ heq
    (by simp only [sampleHash, h0, h14])⟩

/-- C4: `CachedEdge::operator==` holds exactly when both edges hold the same node
reference and their owned weight values are approximately equal; the values are
compared as they are, the state of the weight table is no argument of the
comparison. -/
theorem C4_cachedEdge_eq_iff (tol : fp) (a b : CachedEdge) :
    CachedEdge.eq tol a b = true ↔
      (a.next_node = b.next_node ∧ ComplexValue.approximatelyEquals tol a.weight b.weight = true) :=
  CachedEdge_eq_iff tol a b

/-- C5: `isZeroTerminal` (resp. `isOneTerminal`) holds exactly when the edge is
terminal and its weight is approximately equal to the canonical zero (resp. one)
weight, under the approximate-equality rule `Edge::operator==` applies to
weights. -/
theorem C5_isZeroTerminal_isOneTerminal (tol : fp) (T : ComplexTable) (terminal : NodePtr)
    (czero cone : Complex) (e : Edge) :
    (Edge.isZeroTerminal tol T terminal czero e = true ↔
        (Edge.isTerminal terminal e = true ∧
          Complex.approximatelyEquals tol T e.weight czero = true)) ∧
      (Edge.isOneTerminal tol T terminal cone e = true ↔
        (Edge.isTerminal terminal e = true ∧
          Complex.approximatelyEquals tol T e.weight cone = true)) := by
  simp [Edge.isZeroTerminal, Edge.isOneTerminal, Edge.isTerminal, Complex.eq]

/-- C5 at the sample environment: the terminal edge whose weight reference holds
10⁻¹⁴ is a zero terminal and no one terminal; the edge to `nodeA` with the
canonical zero weight is no zero terminal. -/
theorem C5_isZeroTerminal_isOneTerminal_witness :
    Edge.isZeroTerminal sampleTol sampleTable sampleTerminal sampleZero
        ⟨sampleTerminal, ⟨2, 0⟩⟩ = true ∧
      Edge.isOneTerminal sampleTol sampleTable sampleTerminal sampleOne
        ⟨sampleTerminal, ⟨2, 0⟩⟩ = false ∧
      Edge.isZeroTerminal sampleTol sampleTable sampleTerminal sampleZero
        ⟨nodeA, sampleZero⟩ = false := by
  have h := C5_isZeroTerminal_isOneTerminal sampleTol sampleTable sampleTerminal sampleZero
    sampleOne ⟨sampleTerminal, ⟨2, 0⟩⟩
  have h2 := C5_isZeroTerminal_isOneTerminal sampleTol sampleTable sampleTerminal sampleZero
    sampleOne ⟨nodeA, sampleZero⟩
  refine ⟨?_, ?_, ?_⟩
  · rw [h.1]
    constructor
    · decide
    · norm_num [Complex.approximatelyEquals, approximatelyEquals_iff, CTEntry.val,
        sampleTable, sampleTol, sampleZero]
  · rw [Bool.eq_false_iff, Ne, h.2]
    rintro ⟨-, ha⟩
    norm_num [Complex.approximatelyEquals, approximatelyEquals_iff, CTEntry.val,
      sampleTable, sampleTol, sampleOne] at ha
  · rw [Bool.eq_false_iff, Ne, h2.1]
    rintro ⟨ht, -⟩
    exact absurd ht (by decide)

/-- C6: reflexivity of edge equality.  For a positive tolerance every live edge
compares equal to itself, and so does every cached edge. -/
theorem C6_eq_refl (tol : fp) (htol : 0 < tol) (T : ComplexTable) (a : Edge) (c : CachedEdge) :
    Edge.eq tol T a a = true ∧ CachedEdge.eq tol c c = true := by
  constructor
  · rw [Edge_eq_iff]
    exact ⟨rfl, Complex_approximatelyEquals_self tol T a.weight htol⟩
  · rw [CachedEdge_eq_iff]
    exact ⟨rfl, ComplexValue_approximatelyEquals_self tol c.weight htol⟩

/-- C6 at the sample environment, on a live and a cached edge of weight
`1 + 10⁻¹⁴ i`. -/
theorem C6_eq_refl_witness :
    0 < sampleTol ∧
      Edge.eq sampleTol sampleTable ⟨nodeA, ⟨1, 2⟩⟩ ⟨nodeA, ⟨1, 2⟩⟩ = true ∧
      CachedEdge.eq sampleTol ⟨nodeA, ⟨1, 1 / 10 ^ 14⟩⟩ ⟨nodeA, ⟨1, 1 / 10 ^ 14⟩⟩ = true :=
  have htol : 0 < sampleTol := by norm_num [sampleTol]
  ⟨htol, C6_eq_refl sampleTol htol sampleTable ⟨nodeA, ⟨1, 2⟩⟩ ⟨nodeA, ⟨1, 1 / 10 ^ 14⟩⟩⟩

/-- C7: symmetry of edge equality.  If a live edge `a` compares equal to `b` then
`b` compares equal to `a`, and the same holds for cached edges. -/
theorem C7_eq_symm (tol : fp) (T : ComplexTable) (a b : Edge) (c d : CachedEdge) :
    (Edge.eq tol T a b = true → Edge.eq tol T b a = true) ∧
      (CachedEdge.eq tol c d = true → CachedEdge.eq tol d c = true) := by
  constructor
  · intro h
    rw [Edge_eq_iff] at h ⊢
    exact ⟨h.1.symm, by rw [Complex_approximatelyEquals_comm]; exact h.2⟩
  · intro h
    rw [CachedEdge_eq_iff] at h ⊢
    exact ⟨h.1.symm, by rw [ComplexValue_approximatelyEquals_comm]; exact h.2⟩

/-- C7 at the specification's scenario: `{nodeA, 1 + 0i}` and
`{nodeA, 1 + 10⁻¹⁴ i}` compare equal in both orders, as live and as cached
edges. -/
theorem C7_eq_symm_witness :
    (Edge.eq sampleTol sampleTable ⟨nodeA, ⟨1, 0⟩⟩ ⟨nodeA, ⟨1, 2⟩⟩ = true ∧
        Edge.eq sampleTol sampleTable ⟨nodeA, ⟨1, 2⟩⟩ ⟨nodeA, ⟨1, 0⟩⟩ = true) ∧
      (CachedEdge.eq sampleTol ⟨nodeA, ⟨1, 0⟩⟩ ⟨nodeA, ⟨1, 1 / 10 ^ 14⟩⟩ = true ∧
        CachedEdge.eq sampleTol ⟨nodeA, ⟨1, 1 / 10 ^ 14⟩⟩ ⟨nodeA, ⟨1, 0⟩⟩ = true) := by
  have hl : Edge.eq sampleTol sampleTable ⟨nodeA, ⟨1, 0⟩⟩ ⟨nodeA, ⟨1, 2⟩⟩ = true := by
    norm_num [Edge.eq, Complex.approximatelyEquals, approximatelyEquals_iff, CTEntry.val,
      sampleTable, sampleTol]
  have hc : CachedEdge.eq sampleTol ⟨nodeA, ⟨1, 0⟩⟩ ⟨nodeA, ⟨1, 1 / 10 ^ 14⟩⟩ = true := by
    norm_num [CachedEdge.eq, ComplexValue.approximatelyEquals, approximatelyEquals_iff, sampleTol]
  have h := C7_eq_symm sampleTol sampleTable ⟨nodeA, ⟨1, 0⟩⟩ ⟨nodeA, ⟨1, 2⟩⟩
    ⟨nodeA, ⟨1, 0⟩⟩ ⟨nodeA, ⟨1, 1 / 10 ^ 14⟩⟩
  exact ⟨⟨hl, h.1 hl⟩, ⟨hc, h.2 hc⟩⟩

/-- C8: for both edge kinds `operator!=` is the negation of `operator==`: it
returns true exactly when `operator==` returns false. -/
theorem C8_ne_iff_not_eq (tol : fp) (T : ComplexTable) (a b : Edge) (c d : CachedEdge) :
    (Edge.ne tol T a b = true ↔ Edge.eq tol T a b = false) ∧
      (CachedEdge.ne tol c d = true ↔ CachedEdge.eq tol c d = false) ∧
      Edge.ne tol T a b = !Edge.eq tol T a b ∧
      CachedEdge.ne tol c d = !CachedEdge.eq tol c d := by
  simp [Edge.ne, CachedEdge.ne]

/-- C9: `Edge::terminal(w)` is the edge whose node reference is the terminal
sentinel and whose weight is `w`, unchanged; it is terminal whatever `w` is. -/
theorem C9_terminal (terminal : NodePtr) (w : Complex) :
    (Edge.terminal terminal w).next_node = terminal ∧
      (Edge.terminal terminal w).weight = w ∧
      Edge.isTerminal terminal (Edge.terminal terminal w) = true := by
  simp [Edge.terminal, Edge.isTerminal, Node.isTerminal]

/-- C10: `isTerminal` holds exactly when the node reference of the edge is the
terminal sentinel; the weight plays no part, and an edge built from any other
node reference is not terminal. -/
theorem C10_isTerminal_iff (terminal : NodePtr) (e : Edge) :
    (Edge.isTerminal terminal e = true ↔ e.next_node = terminal) ∧
      (∀ w : Complex, Edge.isTerminal terminal ⟨e.next_node, w⟩ = Edge.isTerminal terminal e) ∧
      (∀ (p : NodePtr) (w : Complex), p ≠ terminal → Edge.isTerminal terminal ⟨p, w⟩ = false) := by
  refine ⟨by simp [Edge.isTerminal, Node.isTerminal], fun w => rfl, ?_⟩
  intro p w hp
  simp [Edge.isTerminal, Node.isTerminal, hp]

/-- C10 at the sample environment: an edge to `nodeA` is not terminal, an edge to
the sentinel is, under the same weight. -/
theorem C10_isTerminal_iff_witness :
    nodeA ≠ sampleTerminal ∧
      Edge.isTerminal sampleTerminal ⟨nodeA, sampleOne⟩ = false ∧
      Edge.isTerminal sampleTerminal ⟨sampleTerminal, sampleOne⟩ = true :=
  have hne : nodeA ≠ sampleTerminal := by decide
  ⟨hne, (C10_isTerminal_iff sampleTerminal ⟨nodeA, sampleOne⟩).2.2 nodeA sampleOne hne,
    (C10_isTerminal_iff sampleTerminal ⟨sampleTerminal, sampleOne⟩).1.mpr rfl⟩

/-- C11: the canonical constants satisfy their own predicates.  `Edge::one` is
the terminal sentinel with the canonical weight one and, for a positive
tolerance, is a one terminal; `Edge::zero` is the terminal sentinel with the
canonical weight zero and, for a positive tolerance, is a zero terminal. -/
theorem C11_canonical_constants (tol : fp) (T : ComplexTable) (terminal : NodePtr)
    (czero cone : Complex) :
    (Edge.one terminal cone).next_node = terminal ∧
      (Edge.one terminal cone).weight = cone ∧
      (0 < tol → Edge.isOneTerminal tol T terminal cone (Edge.one terminal cone) = true) ∧
      (Edge.zero terminal czero).next_node = terminal ∧
      (Edge.zero terminal czero).weight = czero ∧
      (0 < tol → Edge.isZeroTerminal tol T terminal czero (Edge.zero terminal czero) = true) := by
  refine ⟨rfl, rfl, ?_, rfl, rfl, ?_⟩
  · intro htol
    simp [Edge.one, Edge.isOneTerminal, Node.isTerminal, Complex.eq,
      Complex_approximatelyEquals_self tol T cone htol]
  · intro htol
    simp [Edge.zero, Edge.isZeroTerminal, Node.isTerminal, Complex.eq,
      Complex_approximatelyEquals_self tol T czero htol]

/-- C11 at the sample environment, tolerance 10⁻¹⁰. -/
theorem C11_canonical_constants_witness :
    0 < sampleTol ∧
      Edge.isOneTerminal sampleTol sampleTable sampleTerminal sampleOne
        (Edge.one sampleTerminal sampleOne) = true ∧
      Edge.isZeroTerminal sampleTol sampleTable sampleTerminal sampleZero
        (Edge.zero sampleTerminal sampleZero) = true :=
  have htol : 0 < sampleTol := by norm_num [sampleTol]
  have h := C11_canonical_constants sampleTol sampleTable sampleTerminal sampleZero sampleOne
  ⟨htol, h.2.2.1 htol, h.2.2.2.2.2 htol⟩

/-- C12: the two canonical constants are distinct.  When the real part of the
canonical weight one holds 1, that of the canonical weight zero holds 0 and the
tolerance is at most 1, `Edge::one != Edge::zero` is true and `Edge::one ==
Edge::zero` false, although both edges point to the terminal sentinel; and
`Edge::one` is no zero terminal, `Edge::zero` no one terminal. -/
theorem C12_one_ne_zero (tol : fp) (T : ComplexTable) (terminal : NodePtr)
    (czero cone : Complex) (htol : tol ≤ 1)
    (hone : CTEntry.val T cone.real = 1) (hzero : CTEntry.val T czero.real = 0) :
    Edge.ne tol T (Edge.one terminal cone) (Edge.zero terminal czero) = true ∧
      Edge.eq tol T (Edge.one terminal cone) (Edge.zero terminal czero) = false ∧
      (Edge.one terminal cone).next_node = (Edge.zero terminal czero).next_node ∧
      Edge.isZeroTerminal tol T terminal czero (Edge.one terminal cone) = false ∧
      Edge.isOneTerminal tol T terminal cone (Edge.zero terminal czero) = false := by
  have happ : approximatelyEquals tol (CTEntry.val T cone.real) (CTEntry.val T czero.real)
      = false := by
    rw [Bool.eq_false_iff, Ne, approximatelyEquals_iff, hone, hzero]
    intro h
    linarith [h.1]
  have happ2 : approximatelyEquals tol (CTEntry.val T czero.real) (CTEntry.val T cone.real)
      = false := by
    rw [dd.approximatelyEquals_comm]
    exact happ
  have heq : Edge.eq tol T (Edge.one terminal cone) (Edge.zero terminal czero) = false := by
    simp [Edge.eq, Edge.one, Edge.zero, Complex.approximatelyEquals, happ]
  refine ⟨by simp [Edge.ne, heq], heq, rfl, ?_, ?_⟩
  · simp [Edge.isZeroTerminal, Edge.one, Complex.eq, Complex.approximatelyEquals, happ]
  · simp [Edge.isOneTerminal, Edge.zero, Complex.eq, Complex.approximatelyEquals, happ2]

/-- C12 at the sample environment: tolerance 10⁻¹⁰, entry 1 of the table holding
1 and entry 0 holding 0. -/
theorem C12_one_ne_zero_witness :
    sampleTol ≤ 1 ∧ CTEntry.val sampleTable sampleOne.real = 1 ∧
      CTEntry.val sampleTable sampleZero.real = 0 ∧
      Edge.ne sampleTol sampleTable (Edge.one sampleTerminal sampleOne)
        (Edge.zero sampleTerminal sampleZero) = true ∧
      Edge.isZeroTerminal sampleTol sampleTable sampleTerminal sampleZero
        (Edge.one sampleTerminal sampleOne) = false ∧
      Edge.isOneTerminal sampleTol sampleTable sampleTerminal sampleOne
        (Edge.zero sampleTerminal sampleZero) = false := by
  have htol : sampleTol ≤ 1 := by norm_num [sampleTol]
  have hone : CTEntry.val sampleTable sampleOne.real = 1 := by
    simp [CTEntry.val, sampleTable, sampleOne]
  have hzero : CTEntry.val sampleTable sampleZero.real = 0 := by
    simp [CTEntry.val, sampleTable, sampleZero]
  have h := C12_one_ne_zero sampleTol sampleTable sampleTerminal sampleZero sampleOne
    htol hone hzero
  exact ⟨htol, hone, hzero, h.1, h.2.2.2.1, h.2.2.2.2⟩

/-- C13: the cached edge constructed from a node reference `n` and a weight
reference `c` holds `n`, and as weight the numeric values the two handles of `c`
dereference to in the table at construction time, not the handles. -/
theorem C13_ofComplex (T : ComplexTable) (n : NodePtr) (c : Complex) :
    (CachedEdge.ofComplex T n c).next_node = n ∧
      (CachedEdge.ofComplex T n c).weight.r = CTEntry.val T c.real ∧
      (CachedEdge.ofComplex T n c).weight.i = CTEntry.val T c.img := by
  simp [CachedEdge.ofComplex]

/-- C14: snapshot isolation.  A cached edge constructed from a live edge `e` in
the table `T` keeps its node reference and both weight components through any
later mutations of the table, the entries `e.weight` refers to included: they
are the values `T` held at construction. -/
theorem C14_snapshot_isolation (T : ComplexTable) (e : Edge) (ms : List (CTEntryPtr × fp)) :
    (CacheState.mutateAll (CacheState.construct T e) ms).cached
        = (CacheState.construct T e).cached ∧
      (CacheState.mutateAll (CacheState.construct T e) ms).cached.next_node = e.next_node ∧
      (CacheState.mutateAll (CacheState.construct T e) ms).cached.weight.r
        = CTEntry.val T e.weight.real ∧
      (CacheState.mutateAll (CacheState.construct T e) ms).cached.weight.i
        = CTEntry.val T e.weight.img := by
  rw [CacheState_mutateAll_cached]
  simp [CacheState.construct, CachedEdge.ofComplex]

/-- C14 at the sample environment: after the entries 1 and 0, which the weight
`1 + 0i` of the live edge refers to, are overwritten with 5 and 7, the table
reads 5 and 7 there and the cached edge still holds `1 + 0i`. -/
theorem C14_snapshot_isolation_witness :
    CTEntry.val (CacheState.mutateAll (CacheState.construct sampleTable ⟨nodeA, sampleOne⟩)
        [(1, 5), (0, 7)]).table sampleOne.real = 5 ∧
      CTEntry.val (CacheState.mutateAll (CacheState.construct sampleTable ⟨nodeA, sampleOne⟩)
        [(1, 5), (0, 7)]).table sampleOne.img = 7 ∧
      (CacheState.mutateAll (CacheState.construct sampleTable ⟨nodeA, sampleOne⟩)
        [(1, 5), (0, 7)]).cached = ⟨nodeA, ⟨1, 0⟩⟩ := by
  refine ⟨?_, ?_, ?_⟩
  · simp [CacheState.mutateAll, CacheState.mutate, CacheState.construct, ComplexTable.mutate,
      CTEntry.val, sampleOne]
  · simp [CacheState.mutateAll, CacheState.mutate, CacheState.construct, ComplexTable.mutate,
      CTEntry.val, sampleOne]
  · rw [(C14_snapshot_isolation sampleTable ⟨nodeA, sampleOne⟩ [(1, 5), (0, 7)]).1]
    simp [CacheState.construct, CachedEdge.ofComplex, CTEntry.val, sampleTable, sampleOne]

/-- C15: a default-constructed cached edge holds the null node reference and the
weight zero, real and imaginary part 0; the cached edge constructed from a node
reference `n` and an owned value `v` holds exactly `n` and `v`. -/
theorem C15_default_and_ofValue (n : NodePtr) (v : ComplexValue) :
    CachedEdge.default.next_node = 0 ∧
      CachedEdge.default.weight.r = 0 ∧
      CachedEdge.default.weight.i = 0 ∧
      (CachedEdge.ofValue n v).next_node = n ∧
      (CachedEdge.ofValue n v).weight = v := by
  simp [CachedEdge.default, CachedEdge.ofValue]

/-- C16: node identity is necessary for equality.  Two live edges with different
node references compare unequal whatever their weights are, and so do two cached
edges. -/
theorem C16_ne_of_node_ne (tol : fp) (T : ComplexTable) (a b : Edge) (c d : CachedEdge) :
    (a.next_node ≠ b.next_node → Edge.ne tol T a b = true ∧ Edge.eq tol T a b = false) ∧
      (c.next_node ≠ d.next_node →
        CachedEdge.ne tol c d = true ∧ CachedEdge.eq tol c d = false) := by
  constructor
  · intro h
    simp [Edge.ne, Edge.eq, h]
  · intro h
    simp [CachedEdge.ne, CachedEdge.eq, h]

/-- C16 at the specification's scenario: `e1 = {nodeA, 1 + 0i}` and
`e3 = {nodeB, 1 + 0i}` carry the very same weight and compare unequal, as live
and as cached edges. -/
theorem C16_ne_of_node_ne_witness :
    nodeA ≠ nodeB ∧
      Edge.ne sampleTol sampleTable ⟨nodeA, sampleOne⟩ ⟨nodeB, sampleOne⟩ = true ∧
      CachedEdge.ne sampleTol ⟨nodeA, ⟨1, 0⟩⟩ ⟨nodeB, ⟨1, 0⟩⟩ = true :=
  have hne : nodeA ≠ nodeB := by decide
  have h := C16_ne_of_node_ne sampleTol sampleTable ⟨nodeA, sampleOne⟩ ⟨nodeB, sampleOne⟩
    ⟨nodeA, ⟨1, 0⟩⟩ ⟨nodeB, ⟨1, 0⟩⟩
  ⟨hne, (h.1 hne).1, (h.2 hne).1⟩

/-- C17, counterexample: with the tolerance 10⁻¹⁰ the cached edges on `nodeA`
with the weights 0, 0.6·10⁻¹⁰ and 1.2·10⁻¹⁰ give `a == b` and `b == c` but not
`a == c`. -/
theorem C17_eq_trans_counterexample :
    CachedEdge.eq sampleTol ⟨nodeA, ⟨0, 0⟩⟩ ⟨nodeA, ⟨6 / 10 ^ 11, 0⟩⟩ = true ∧
      CachedEdge.eq sampleTol ⟨nodeA, ⟨6 / 10 ^ 11, 0⟩⟩ ⟨nodeA, ⟨12 / 10 ^ 11, 0⟩⟩ = true ∧
      CachedEdge.eq sampleTol ⟨nodeA, ⟨0, 0⟩⟩ ⟨nodeA, ⟨12 / 10 ^ 11, 0⟩⟩ = false := by
  refine ⟨?_, ?_, ?_⟩
  · norm_num [CachedEdge.eq, ComplexValue.approximatelyEquals, approximatelyEquals_iff, sampleTol]
  · norm_num [CachedEdge.eq, ComplexValue.approximatelyEquals, approximatelyEquals_iff, sampleTol]
  · rw [Bool.eq_false_iff]
    norm_num [CachedEdge.eq, ComplexValue.approximatelyEquals, approximatelyEquals_iff, sampleTol]

/-- C17, amended: edge equality is not transitive, it degrades by one tolerance
per step.  If `a == b` and `b == c` then `a` and `c` hold the same node
reference and their weights are approximately equal under twice the tolerance,
that is, `a == c` holds for the doubled tolerance; for live and for cached
edges. -/
theorem C17_eq_two_steps (tol : fp) (T : ComplexTable) (a b c : Edge) (x y z : CachedEdge) :
    (Edge.eq tol T a b = true → Edge.eq tol T b c = true →
        a.next_node = c.next_node ∧ Edge.eq (2 * tol) T a c = true) ∧
      (CachedEdge.eq tol x y = true → CachedEdge.eq tol y z = true →
        x.next_node = z.next_node ∧ CachedEdge.eq (2 * tol) x z = true) := by
  constructor
  · intro hab hbc
    rw [Edge_eq_iff] at hab hbc
    have hn : a.next_node = c.next_node := hab.1.trans hbc.1
    refine ⟨hn, ?_⟩
    rw [Edge_eq_iff]
    refine ⟨hn, ?_⟩
    have h1 := hab.2
    have h2 := hbc.2
    unfold Complex.approximatelyEquals at h1 h2 ⊢
    rw [Bool.and_eq_true] at h1 h2 ⊢
    exact ⟨approximatelyEquals_two_steps tol _ _ _ h1.1 h2.1,
      approximatelyEquals_two_steps tol _ _ _ h1.2 h2.2⟩
  · intro hxy hyz
    rw [CachedEdge_eq_iff] at hxy hyz
    have hn : x.next_node = z.next_node := hxy.1.trans hyz.1
    refine ⟨hn, ?_⟩
    rw [CachedEdge_eq_iff]
    refine ⟨hn, ?_⟩
    have h1 := hxy.2
    have h2 := hyz.2
    unfold ComplexValue.approximatelyEquals at h1 h2 ⊢
    rw [Bool.and_eq_true] at h1 h2 ⊢
    exact ⟨approximatelyEquals_two_steps tol _ _ _ h1.1 h2.1,
      approximatelyEquals_two_steps tol _ _ _ h1.2 h2.2⟩

/-- C17 at the sample environment: the cached edges with the weights 0,
0.6·10⁻¹⁰ and 1.2·10⁻¹⁰ compare equal step by step, and the outer two compare
equal under the tolerance 2·10⁻¹⁰; so do the live edges with the weights
`1 + 0i`, `1 + 10⁻¹⁴ i` and `1 + 0i`. -/
theorem C17_eq_two_steps_witness :
    CachedEdge.eq sampleTol ⟨nodeA, ⟨0, 0⟩⟩ ⟨nodeA, ⟨6 / 10 ^ 11, 0⟩⟩ = true ∧
      CachedEdge.eq sampleTol ⟨nodeA, ⟨6 / 10 ^ 11, 0⟩⟩ ⟨nodeA, ⟨12 / 10 ^ 11, 0⟩⟩ = true ∧
      CachedEdge.eq (2 * sampleTol) ⟨nodeA, ⟨0, 0⟩⟩ ⟨nodeA, ⟨12 / 10 ^ 11, 0⟩⟩ = true ∧
      Edge.eq (2 * sampleTol) sampleTable ⟨nodeA, ⟨1, 0⟩⟩ ⟨nodeA, ⟨1, 0⟩⟩ = true := by
  have h1 : CachedEdge.eq sampleTol ⟨nodeA, ⟨0, 0⟩⟩ ⟨nodeA, ⟨6 / 10 ^ 11, 0⟩⟩ = true := by
    norm_num [CachedEdge.eq, ComplexValue.approximatelyEquals, approximatelyEquals_iff, sampleTol]
  have h2 : CachedEdge.eq sampleTol ⟨nodeA, ⟨6 / 10 ^ 11, 0⟩⟩ ⟨nodeA, ⟨12 / 10 ^ 11, 0⟩⟩
      = true := by
    norm_num [CachedEdge.eq, ComplexValue.approximatelyEquals, approximatelyEquals_iff, sampleTol]
  have l1 : Edge.eq sampleTol sampleTable ⟨nodeA, ⟨1, 0⟩⟩ ⟨nodeA, ⟨1, 2⟩⟩ = true := by
    norm_num [Edge.eq, Complex.approximatelyEquals, approximatelyEquals_iff, CTEntry.val,
      sampleTable, sampleTol]
  have l2 : Edge.eq sampleTol sampleTable ⟨nodeA, ⟨1, 2⟩⟩ ⟨nodeA, ⟨1, 0⟩⟩ = true := by
    norm_num [Edge.eq, Complex.approximatelyEquals, approximatelyEquals_iff, CTEntry.val,
      sampleTable, sampleTol]
  have h := C17_eq_two_steps sampleTol sampleTable ⟨nodeA, ⟨1, 0⟩⟩ ⟨nodeA, ⟨1, 2⟩⟩
    ⟨nodeA, ⟨1, 0⟩⟩ ⟨nodeA, ⟨0, 0⟩⟩ ⟨nodeA, ⟨6 / 10 ^ 11, 0⟩⟩ ⟨nodeA, ⟨12 / 10 ^ 11, 0⟩⟩
  exact ⟨h1, h2, (h.2 h1 h2).2, (h.1 l1 l2).2⟩

/-- C18: the edge hash is a function of the node address and the weight only.
For both edge kinds it is `combineHash` of `murmur64` of the node address, first
argument, and the weight hash, second argument; two edges with the same node
reference and the same weight have the same hash.  The node is never
dereferenced: no memory is an argument of the hash. -/
theorem C18_hash_formula (H : HashFns) (a b : Edge) (c d : CachedEdge) :
    Edge.hash H a = H.combineHash (H.murmur64 a.next_node) (H.hashComplex a.weight) ∧
      CachedEdge.hash H c
        = H.combineHash (H.murmur64 c.next_node) (H.hashComplexValue c.weight) ∧
      (a.next_node = b.next_node → a.weight = b.weight → Edge.hash H a = Edge.hash H b) ∧
      (c.next_node = d.next_node → c.weight = d.weight →
        CachedEdge.hash H c = CachedEdge.hash H d) := by
  refine ⟨rfl, rfl, ?_, ?_⟩
  · intro hn hw
    simp only [Edge.hash, hn, hw]
  · intro hn hw
    simp only [CachedEdge.hash, hn, hw]

/-- C18 at the sample environment: the live edge `{nodeA, 1 + 0i}` hashes to
`combineHash(murmur64(4096), 2)`, which is 8126914 with the sample helpers. -/
theorem C18_hash_formula_witness :
    Edge.hash sampleHash ⟨nodeA, sampleOne⟩
        = sampleHash.combineHash (sampleHash.murmur64 4096) 2 ∧
      Edge.hash sampleHash ⟨nodeA, sampleOne⟩ = 8126914 := by
  have h := (C18_hash_formula sampleHash ⟨nodeA, sampleOne⟩ ⟨nodeA, sampleOne⟩
    ⟨nodeA, ⟨1, 0⟩⟩ ⟨nodeA, ⟨1, 0⟩⟩).1
  constructor
  · rw [h]
    rfl
  · rw [h]
    decide

end dd
